import Mathlib

/-!
Shallow embedding of `src/scheduler.py` (class `ScheduleChecker`): a
change-detection poller that fetches a list of URLs, fingerprints each
payload with MD5, compares the fingerprint with the per-URL stored one,
and persists changed payloads under timestamped names.

Python `bytes` values are embedded as `List Nat` (each entry a byte),
Python `str` as Lean `String` (or `List Char` for character processing),
the `last_checksums` dict as an association list in insertion order, and
the network plus the event loop as an explicit environment argument
(`NetEvent` per URL).  Exceptions are embedded with `Except`.
-/

set_option maxRecDepth 100000

namespace Rasp

/-! ### MD5 (embedding of `hashlib.md5(...).hexdigest()`)

`ScheduleChecker.calculate_checksum` delegates to CPython's `hashlib.md5`;
the RFC 1321 algorithm is embedded here directly so that fingerprints are
computable values. Words are `Nat` reduced mod 2^32. -/

/-- Reduce a natural number to a 32-bit word. -/
def w32 (n : Nat) : Nat := n % 4294967296

/-- Bitwise complement on 32-bit words (argument assumed `< 2^32`). -/
def not32 (n : Nat) : Nat := 4294967295 - n

/-- Left rotation of a 32-bit word by `s` places (`0 < s < 32`). -/
def rotl32 (x s : Nat) : Nat := w32 (x <<< s) + (x >>> (32 - s))

/-- Round function F of MD5: `(B ∧ C) ∨ (¬B ∧ D)`. -/
def md5F (b c d : Nat) : Nat := Nat.lor (Nat.land b c) (Nat.land (not32 b) d)

/-- Round function G of MD5: `(B ∧ D) ∨ (C ∧ ¬D)`. -/
def md5G (b c d : Nat) : Nat := Nat.lor (Nat.land b d) (Nat.land c (not32 d))

/-- Round function H of MD5: `B ⊕ C ⊕ D`. -/
def md5H (b c d : Nat) : Nat := Nat.xor b (Nat.xor c d)

/-- Round function I of MD5: `C ⊕ (B ∨ ¬D)`. -/
def md5I (b c d : Nat) : Nat := Nat.xor c (Nat.lor b (not32 d))

/-- The 64 MD5 round constants `⌊2^32·|sin(i+1)|⌋`. -/
def md5K : List Nat :=
  [3614090360, 3905402710, 606105819, 3250441966, 4118548399, 1200080426,
   2821735955, 4249261313, 1770035416, 2336552879, 4294925233, 2304563134,
   1804603682, 4254626195, 2792965006, 1236535329, 4129170786, 3225465664,
   643717713, 3921069994, 3593408605, 38016083, 3634488961, 3889429448,
   568446438, 3275163606, 4107603335, 1163531501, 2850285829, 4243563512,
   1735328473, 2368359562, 4294588738, 2272392833, 1839030562, 4259657740,
   2763975236, 1272893353, 4139469664, 3200236656, 681279174, 3936430074,
   3572445317, 76029189, 3654602809, 3873151461, 530742520, 3299628645,
   4096336452, 1126891415, 2878612391, 4237533241, 1700485571, 2399980690,
   4293915773, 2240044497, 1873313359, 4264355552, 2734768916, 1309151649,
   4149444226, 3174756917, 718787259, 3951481745]

/-- The 64 MD5 per-round left-rotation amounts. -/
def md5S : List Nat :=
  [7, 12, 17, 22, 7, 12, 17, 22, 7, 12, 17, 22, 7, 12, 17, 22,
   5, 9, 14, 20, 5, 9, 14, 20, 5, 9, 14, 20, 5, 9, 14, 20,
   4, 11, 16, 23, 4, 11, 16, 23, 4, 11, 16, 23, 4, 11, 16, 23,
   6, 10, 15, 21, 6, 10, 15, 21, 6, 10, 15, 21, 6, 10, 15, 21]

/-- MD5 working state: the four 32-bit registers `a b c d`. -/
structure Md5State where
  a : Nat
  b : Nat
  c : Nat
  d : Nat
deriving DecidableEq

/-- One MD5 round `i` (0 ≤ i < 64) on state `st`, where `m g` is the
`g`-th little-endian 32-bit word of the current chunk. -/
def md5Round (m : Nat → Nat) (st : Md5State) (i : Nat) : Md5State :=
  let fg : Nat × Nat :=
    if i < 16 then (md5F st.b st.c st.d, i)
    else if i < 32 then (md5G st.b st.c st.d, (5 * i + 1) % 16)
    else if i < 48 then (md5H st.b st.c st.d, (3 * i + 5) % 16)
    else (md5I st.b st.c st.d, (7 * i) % 16)
  let f := w32 (fg.1 + st.a + md5K.getD i 0 + m fg.2)
  ⟨st.d, w32 (st.b + rotl32 f (md5S.getD i 0)), st.b, st.c⟩

/-- The `g`-th little-endian 32-bit word of a 64-byte chunk. -/
def chunkWord (chunk : List Nat) (g : Nat) : Nat :=
  chunk.getD (4 * g) 0 + 256 * chunk.getD (4 * g + 1) 0 +
    65536 * chunk.getD (4 * g + 2) 0 + 16777216 * chunk.getD (4 * g + 3) 0

/-- Process one 64-byte chunk: run the 64 rounds and add the result to
the incoming registers. -/
def md5Chunk (st : Md5State) (chunk : List Nat) : Md5State :=
  let r := (List.range 64).foldl (md5Round (chunkWord chunk)) st
  ⟨w32 (st.a + r.a), w32 (st.b + r.b), w32 (st.c + r.c), w32 (st.d + r.d)⟩

/-- Process a padded message 64 bytes at a time; `fuel` bounds the
recursion and is instantiated with the message length. -/
def md5Chunks (fuel : Nat) (st : Md5State) (msg : List Nat) : Md5State :=
  match fuel, msg with
  | _, [] => st
  | 0, _ => st
  | fuel + 1, msg => md5Chunks fuel (md5Chunk st (msg.take 64)) (msg.drop 64)

/-- The 8-byte little-endian encoding of the 64-bit bit length. -/
def md5LenBytes (bitLen : Nat) : List Nat :=
  [bitLen % 256, bitLen / 256 % 256, bitLen / 65536 % 256,
   bitLen / 16777216 % 256, bitLen / 4294967296 % 256,
   bitLen / 1099511627776 % 256, bitLen / 281474976710656 % 256,
   bitLen / 72057594037927936 % 256]

/-- RFC 1321 padding: append `0x80`, zero bytes up to 56 mod 64, then the
64-bit little-endian bit length. -/
def md5Pad (msg : List Nat) : List Nat :=
  msg ++ 128 :: List.replicate ((119 - msg.length % 64) % 64) 0 ++
    md5LenBytes ((8 * msg.length) % 18446744073709551616)

/-- The initial MD5 register values. -/
def md5Init : Md5State := ⟨1732584193, 4023233417, 2562383102, 271733878⟩

/-- Lower-case hexadecimal digit for `n < 16`. -/
def hexDigit (n : Nat) : Char :=
  if n < 10 then Char.ofNat (48 + n) else Char.ofNat (87 + n)

/-- Two lower-case hex characters of one byte. -/
def byteHex (b : Nat) : List Char := [hexDigit (b / 16 % 16), hexDigit (b % 16)]

/-- The four little-endian bytes of a 32-bit word. -/
def wordBytes (w : Nat) : List Nat :=
  [w % 256, w / 256 % 256, w / 65536 % 256, w / 16777216 % 256]

/-- The 32-character lower-case hex digest of an MD5 state. -/
def md5Digest (st : Md5State) : String :=
  String.mk (((wordBytes st.a ++ wordBytes st.b ++ wordBytes st.c ++
    wordBytes st.d).map byteHex).flatten)

/-- MD5 hex digest of a byte string, as `hashlib.md5(data).hexdigest()`. -/
def md5Hex (data : List Nat) : String :=
  md5Digest (md5Chunks (md5Pad data).length md5Init (md5Pad data))

/-! ### Python primitives used by `scheduler.py` -/

/-- Embedding of the `last_checksums` dict: an association list in key
insertion order (CPython dicts preserve insertion order and keep keys
unique). A value of `none` embeds Python `None`. -/
def Checksums : Type := List (String × Option String)

/-- Lookup in the dict: `some v` when the key is present with value `v`
(where `v` itself may be `none`, embedding `None`), `none` when absent. -/
def dictLookup : List (String × Option String) → String → Option (Option String)
  | [], _ => none
  | (k0, v0) :: rest, k => if k0 = k then some v0 else dictLookup rest k

/-- Embedding of `d.get(k)` with default `None`: a missing key and a key
stored with value `None` are indistinguishable, exactly as in the code. -/
def pyDictGet (d : List (String × Option String)) (k : String) : Option String :=
  (dictLookup d k).getD none

/-- Embedding of the dict assignment `d[k] = v`: overwrite the entry in
place when the key is present, append it otherwise. -/
def dictSet : List (String × Option String) → String → Option String →
    List (String × Option String)
  | [], k, v => [(k, v)]
  | (k0, v0) :: rest, k, v =>
    if k0 = k then (k0, v) :: rest else (k0, v0) :: dictSet rest k v

/-- The keys of the dict, in order. -/
def dictKeys (d : List (String × Option String)) : List String := d.map Prod.fst

/-- Embedding of `s.split("/")`: split on every slash, keeping empty
segments, always producing at least one segment. -/
def pySplitSlash : List Char → List (List Char)
  | [] => [[]]
  | c :: rest =>
    match pySplitSlash rest with
    | seg :: segs => if c = '/' then [] :: seg :: segs else (c :: seg) :: segs
    | [] => [[]]

/-- Embedding of `url.split("/")[-1]`: the trailing path segment. -/
def lastSegment (url : String) : List Char := (pySplitSlash url.data).getLastD []

/-- Embedding of `s.replace('.pdf', '')`: remove every non-overlapping
occurrence of the substring `.pdf`, scanning left to right (Python
`str.replace` replaces ALL occurrences, not only a suffix). -/
def removePdf : List Char → List Char
  | '.' :: 'p' :: 'd' :: 'f' :: rest => removePdf rest
  | c :: rest => c :: removePdf rest
  | [] => []

/-- Embedding of the two-argument `os.path.join(a, b)` on POSIX: `b` when
`b` is absolute, otherwise `a` and `b` joined with exactly one slash. -/
def pyPathJoin (a b : String) : String :=
  if b.data.headD ' ' = '/' then b
  else if a = "" then b
  else if a.data.getLastD ' ' = '/' then a ++ b
  else a ++ "/" ++ b

/-- A wall-clock timestamp as `datetime.now()` exposes it to `strftime`. -/
structure DateTime where
  year : Nat
  month : Nat
  day : Nat
  hour : Nat
  minute : Nat
  second : Nat
deriving DecidableEq

/-- Decimal digits of `n`, zero-padded on the left to width 2. -/
def pad2 (n : Nat) : String := if n < 10 then "0" ++ toString n else toString n

/-- Decimal digits of `n`, zero-padded on the left to width 4. -/
def pad4 (n : Nat) : String :=
  if n < 10 then "000" ++ toString n
  else if n < 100 then "00" ++ toString n
  else if n < 1000 then "0" ++ toString n
  else toString n

/-- Embedding of `datetime.now().strftime("%Y%m%d_%H%M%S")`. -/
def strftimeYmdHMS (t : DateTime) : String :=
  pad4 t.year ++ pad2 t.month ++ pad2 t.day ++ "_" ++
    pad2 t.hour ++ pad2 t.minute ++ pad2 t.second

/-! ### The network environment and aiohttp's exception behavior

`download_file` performs one `session.get(url, timeout=10)` followed by
`response.raise_for_status()` and `response.read()`, inside
`try ... except aiohttp.ClientError: return b""`.  The possible outcomes
of the GET are embedded as `NetEvent`; the exceptions the aiohttp client
raises for them as `PyException`.  Per the aiohttp documentation, DNS and
connection failures raise `ClientConnectorError` and `raise_for_status()`
raises `ClientResponseError` for statuses ≥ 400 — both subclasses of
`aiohttp.ClientError` — while expiry of the *total* timeout raises
`asyncio.TimeoutError`, which is NOT a subclass of `aiohttp.ClientError`. -/

/-- The outcome of the single HTTP GET issued for a URL. -/
inductive NetEvent where
  /-- A response arrived (after redirect handling) with this status and body. -/
  | response (status : Nat) (body : List Nat)
  /-- The total timeout (`timeout=10`) expired. -/
  | timeout
  /-- DNS resolution failed. -/
  | dnsFailure
  /-- The TCP connection failed (refused, reset, unreachable). -/
  | connectionError
deriving DecidableEq

/-- The exceptions that can escape the `try` body of `download_file`. -/
inductive PyException where
  /-- `aiohttp.ClientResponseError`, raised by `raise_for_status()`. -/
  | clientResponseError (status : Nat)
  /-- `aiohttp.ClientConnectorError` (DNS / connection failures). -/
  | clientConnectorError
  /-- `asyncio.TimeoutError`, raised when the total timeout expires. -/
  | asyncioTimeoutError
deriving DecidableEq

/-- Whether an exception is an instance of `aiohttp.ClientError` (the
class named by the `except` clause of `download_file`). -/
def isClientError : PyException → Bool
  | .clientResponseError _ => true
  | .clientConnectorError => true
  | .asyncioTimeoutError => false

/-- The `try` body of `download_file`: perform the GET, call
`raise_for_status()` (which raises exactly when `status >= 400`), and
read the body. -/
def requestResult : NetEvent → Except PyException (List Nat)
  | .response status body =>
    if 400 ≤ status then .error (.clientResponseError status) else .ok body
  | .timeout => .error .asyncioTimeoutError
  | .dnsFailure => .error .clientConnectorError
  | .connectionError => .error .clientConnectorError

/-! ### `ScheduleChecker` -/

/-- The state of a `ScheduleChecker` object: the configured URL list, the
download folder, and the per-URL fingerprint dict created by `__init__`
as a dict comprehension with every value `None`. -/
structure ScheduleChecker where
  urls : List String
  download_folder : String
  last_checksums : List (String × Option String)
deriving DecidableEq

/-- Embedding of `__init__`'s dict comprehension
over the URL list (later duplicates overwrite, keys keep first-occurrence
order, all values `None`). -/
def initChecksums (urls : List String) : List (String × Option String) :=
  urls.foldl (fun d u => dictSet d u none) []

/-- Embedding of `ScheduleChecker.__init__` (the `os.makedirs` side
effect has no bearing on the in-memory state). -/
def ScheduleChecker.mkChecker (urls : List String) (download_folder : String) :
    ScheduleChecker :=
  ⟨urls, download_folder, initChecksums urls⟩

/-- Embedding of `ScheduleChecker.download_file`: run the `try` body; an
`aiohttp.ClientError` is caught and turned into `b""`, any other
exception propagates to the caller. -/
def download_file (ev : NetEvent) : Except PyException (List Nat) :=
  match requestResult ev with
  | .ok body => .ok body
  | .error e => if isClientError e then .ok [] else .error e

/-- Embedding of `ScheduleChecker.calculate_checksum`:
`hashlib.md5(data).hexdigest()`. -/
def calculate_checksum (data : List Nat) : String := md5Hex data

/-- A file written to durable storage: its path and its content. -/
structure SavedArtifact where
  path : String
  data : List Nat
deriving DecidableEq

/-- Embedding of `ScheduleChecker.save_file`: the artifact written at
`os.path.join(download_folder, filename + "_" + timestamp + ".pdf")`
where `filename = url.split("/")[-1].replace('.pdf', '')` and
`timestamp = datetime.now().strftime("%Y%m%d_%H%M%S")`. -/
def save_file (download_folder : String) (now : DateTime) (data : List Nat)
    (url : String) : SavedArtifact :=
  let timestamp := strftimeYmdHMS now
  let filename := String.mk (removePdf (lastSegment url))
  ⟨pyPathJoin download_folder (filename ++ "_" ++ timestamp ++ ".pdf"), data⟩

instance {ε α : Type} [DecidableEq ε] [DecidableEq α] :
    DecidableEq (Except ε α) := fun x y =>
  match x, y with
  | .ok a, .ok b =>
    if h : a = b then isTrue (by rw [h])
    else isFalse (fun hc => h (Except.ok.inj hc))
  | .error a, .error b =>
    if h : a = b then isTrue (by rw [h])
    else isFalse (fun hc => h (Except.error.inj hc))
  | .ok _, .error _ => isFalse (fun hc => Except.noConfusion hc)
  | .error _, .ok _ => isFalse (fun hc => Except.noConfusion hc)

/-- The observable result of one `has_file_changed(url)` call: the object
state after the call, the returned boolean (or the exception that
propagated), and the artifacts written during the call. -/
structure EvalOut where
  self : ScheduleChecker
  result : Except PyException Bool
  saved : List SavedArtifact
deriving DecidableEq

/-- Embedding of `ScheduleChecker.has_file_changed(url)`, with the
network's behavior for this call passed as `ev` and the wall clock as
`now`. Mirrors the source line by line: download; empty ⇒ `False` with no
mutation; absent stored checksum ⇒ initialize it, save, `False`;
differing checksum ⇒ update it, save, `True`; else `False`. -/
def has_file_changed (c : ScheduleChecker) (url : String) (ev : NetEvent)
    (now : DateTime) : EvalOut :=
  match download_file ev with
  | .error e => ⟨c, .error e, []⟩
  | .ok file_data =>
    if file_data = [] then ⟨c, .ok false, []⟩
    else
      let current_checksum := calculate_checksum file_data
      match pyDictGet c.last_checksums url with
      | none =>
        ⟨{ c with last_checksums := dictSet c.last_checksums url (some current_checksum) },
          .ok false, [save_file c.download_folder now file_data url]⟩
      | some last_checksum =>
        if current_checksum ≠ last_checksum then
          ⟨{ c with last_checksums := dictSet c.last_checksums url (some current_checksum) },
            .ok true, [save_file c.download_folder now file_data url]⟩
        else ⟨c, .ok false, []⟩

/-- The observable result of one `check_all_files()` cycle. -/
structure CycleOut where
  self : ScheduleChecker
  results : Except PyException (List Bool)
  saved : List SavedArtifact
deriving DecidableEq

/-- The evaluations of one cycle over the given URL list, threading the
object state. `asyncio.gather` runs the `has_file_changed` tasks
concurrently, but distinct URLs touch distinct dict keys and each task's
read-compare-update runs without intervening awaits, so the sequential
composition in task order is an equivalent embedding; an exception in a
task propagates out of `gather` (and then aborts the whole process). -/
def runChecks (c : ScheduleChecker) (fetch : String → NetEvent)
    (now : DateTime) : List String → CycleOut
  | [] => ⟨c, .ok [], []⟩
  | u :: rest =>
    let o := has_file_changed c u (fetch u) now
    match o.result with
    | .error e => ⟨o.self, .error e, o.saved⟩
    | .ok b =>
      let r := runChecks o.self fetch now rest
      match r.results with
      | .error e => ⟨r.self, .error e, o.saved ++ r.saved⟩
      | .ok bs => ⟨r.self, .ok (b :: bs), o.saved ++ r.saved⟩

/-- Embedding of `ScheduleChecker.check_all_files`: gather the per-URL
evaluations and compute the aggregate `any(results)` signal that selects
between the "updated" and the "no changes" summary log line. -/
def check_all_files (c : ScheduleChecker) (fetch : String → NetEvent)
    (now : DateTime) : ScheduleChecker × Except PyException (List Bool × Bool) ×
      List SavedArtifact :=
  match runChecks c fetch now c.urls with
  | ⟨c1, .ok results, arts⟩ => (c1, .ok (results, results.any id), arts)
  | ⟨c1, .error e, arts⟩ => (c1, .error e, arts)

/-! ### Spec-side definitions, for comparison with the code

These two definitions follow the specification's words (§4.2 of the spec:
the `ChangeOutcome` classification, and §6/§4.2: the artifact name with
"any `.pdf` suffix stripped"). They are deliberately written from the
spec, not from the source, to state refinement claims against. -/

/-- The spec's three-valued outcome of one evaluation. -/
inductive ChangeOutcome where
  | Unchanged
  | FirstSeen
  | Changed
deriving DecidableEq

/-- Spec-side classification of one evaluation, from the spec's words:
fetch failure or empty content ⇒ `Unchanged`; absent stored fingerprint ⇒
`FirstSeen`; differing fingerprint ⇒ `Changed`; else `Unchanged`. -/
def spec_evaluate (lastFingerprint : Option String)
    (fetched : Option (List Nat)) : ChangeOutcome :=
  match fetched with
  | none => .Unchanged
  | some payload =>
    if payload = [] then .Unchanged
    else
      match lastFingerprint with
      | none => .FirstSeen
      | some fp =>
        if calculate_checksum payload ≠ fp then .Changed else .Unchanged

/-- Spec-side artifact path, from the spec's words: the URL's trailing
path segment with any `.pdf` SUFFIX stripped, an underscore, the
`YYYYMMDD_HHMMSS` timestamp, and the `.pdf` extension, inside the output
directory. -/
def spec_artifact_path (download_folder : String) (now : DateTime)
    (url : String) : String :=
  let seg := lastSegment url
  let stem := if 4 ≤ seg.length ∧
      seg.drop (seg.length - 4) = ('.' :: 'p' :: 'd' :: 'f' :: [])
    then seg.take (seg.length - 4) else seg
  pyPathJoin download_folder
    (String.mk stem ++ "_" ++ strftimeYmdHMS now ++ ".pdf")

/-- Whether `.pdf` occurs as a substring (used to state when the code's
replace-all naming coincides with the spec's suffix-stripped naming). -/
def containsPdf : List Char → Bool
  | '.' :: 'p' :: 'd' :: 'f' :: _ => true
  | _ :: rest => containsPdf rest
  | [] => false

/-- A fixed concrete timestamp used by concrete instances. -/
def t0 : DateTime := ⟨2025, 1, 2, 3, 4, 5⟩

/-- The per-URL fetch history after one cycle over `urls` whose network
behavior was `fetch`: every successful non-empty payload downloaded this
cycle is prepended to the URL's history. -/
def logAfterCycle (urls : List String) (fetch : String → NetEvent)
    (log : String → List (List Nat)) : String → List (List Nat) :=
  fun u =>
    if u ∈ urls then
      match download_file (fetch u) with
      | .ok body => if body = [] then log u else body :: log u
      | .error _ => log u
    else log u

/-- States (together with their fetch histories) reachable by the
program: the freshly initialized checker, plus any state produced from a
reachable one by a completed `check_all_files` cycle.  A cycle in which
an exception escapes `asyncio.gather` propagates to `main` and kills the
process, so only cycles whose result is `.ok` lead to further states. -/
inductive Reach (urls : List String) (folder : String) :
    ScheduleChecker → (String → List (List Nat)) → Prop where
  | init : Reach urls folder (ScheduleChecker.mkChecker urls folder) (fun _ => [])
  | step (c : ScheduleChecker) (log : String → List (List Nat))
      (fetch : String → NetEvent) (now : DateTime) (c1 : ScheduleChecker)
      (rs : List Bool × Bool) (arts : List SavedArtifact) :
      Reach urls folder c log →
      check_all_files c fetch now = (c1, .ok rs, arts) →
      Reach urls folder c1 (logAfterCycle c.urls fetch log)

/-! ### Helper lemmas -/

/-- Known test vector: `hashlib.md5(b"").hexdigest()`. -/
theorem md5Hex_empty : md5Hex [] = "d41d8cd98f00b204e9800998ecf8427e" := by decide

/-- Known test vector: `hashlib.md5(b"abc").hexdigest()`. -/
theorem md5Hex_abc : md5Hex [97, 98, 99] = "900150983cd24fb0d6963f7d28e17f72" := by
  decide

theorem dictLookup_dictSet_self (d : List (String × Option String)) (k : String)
    (v : Option String) : dictLookup (dictSet d k v) k = some v := by
  induction d with
  | nil => simp [dictSet, dictLookup]
  | cons e rest ih =>
    by_cases h : e.1 = k
    · simp [dictSet, dictLookup, h]
    · simp [dictSet, dictLookup, h, ih]

theorem dictLookup_dictSet_ne (d : List (String × Option String))
    (k k' : String) (v : Option String) (h : k' ≠ k) :
    dictLookup (dictSet d k v) k' = dictLookup d k' := by
  induction d with
  | nil =>
    simp only [dictSet, dictLookup]
    rw [if_neg (fun hc => h hc.symm)]
  | cons e rest ih =>
    obtain ⟨k0, v0⟩ := e
    by_cases he : k0 = k
    · subst he
      simp only [dictSet, if_pos rfl, dictLookup]
      rw [if_neg (fun hc => h hc.symm), if_neg (fun hc => h hc.symm)]
    · simp only [dictSet, if_neg he, dictLookup, ih]

theorem pyDictGet_dictSet_self (d : List (String × Option String)) (k : String)
    (v : Option String) : pyDictGet (dictSet d k v) k = v := by
  simp [pyDictGet, dictLookup_dictSet_self]

theorem mem_dictKeys_dictSet (d : List (String × Option String))
    (k u : String) (v : Option String) :
    u ∈ dictKeys (dictSet d k v) ↔ u = k ∨ u ∈ dictKeys d := by
  induction d with
  | nil => simp [dictSet, dictKeys]
  | cons e rest ih =>
    obtain ⟨k0, v0⟩ := e
    by_cases he : k0 = k
    · subst he
      simp [dictSet, dictKeys]
    · simp only [dictSet, if_neg he, dictKeys, List.map_cons, List.mem_cons]
      rw [show List.map Prod.fst (dictSet rest k v) = dictKeys (dictSet rest k v)
        from rfl, ih]
      tauto

theorem dictKeys_dictSet_mem (d : List (String × Option String))
    (k : String) (v : Option String) (h : k ∈ dictKeys d) :
    dictKeys (dictSet d k v) = dictKeys d := by
  induction d with
  | nil => simp [dictKeys] at h
  | cons e rest ih =>
    obtain ⟨k0, v0⟩ := e
    by_cases he : k0 = k
    · subst he
      simp [dictSet, dictKeys]
    · have hk : k ∈ dictKeys rest := by
        simp only [dictKeys, List.map_cons, List.mem_cons] at h
        rcases h with h | h
        · exact absurd h.symm he
        · exact h
      simp only [dictSet, if_neg he, dictKeys, List.map_cons]
      exact congrArg _ (ih hk)

theorem mem_dictKeys_foldl (urls : List String)
    (d0 : List (String × Option String)) (u : String) :
    u ∈ dictKeys (urls.foldl (fun d x => dictSet d x none) d0) ↔
      u ∈ dictKeys d0 ∨ u ∈ urls := by
  induction urls generalizing d0 with
  | nil => simp
  | cons x rest ih =>
    simp only [List.foldl_cons, ih, mem_dictKeys_dictSet, List.mem_cons]
    tauto

theorem mem_dictKeys_initChecksums (urls : List String) (u : String) :
    u ∈ dictKeys (initChecksums urls) ↔ u ∈ urls := by
  rw [initChecksums, mem_dictKeys_foldl]
  simp [dictKeys]

theorem dictLookup_foldl_none (urls : List String)
    (d0 : List (String × Option String))
    (h0 : ∀ u s, dictLookup d0 u ≠ some (some s)) (u : String) (s : String) :
    dictLookup (urls.foldl (fun d x => dictSet d x none) d0) u ≠
      some (some s) := by
  induction urls generalizing d0 with
  | nil => exact h0 u s
  | cons x rest ih =>
    simp only [List.foldl_cons]
    refine ih (dictSet d0 x none) (fun u' s' => ?_)
    by_cases hx : u' = x
    · subst hx
      rw [dictLookup_dictSet_self]
      simp
    · rw [dictLookup_dictSet_ne d0 x u' none hx]
      exact h0 u' s'

theorem dictLookup_initChecksums_none (urls : List String) (u s : String) :
    dictLookup (initChecksums urls) u ≠ some (some s) := by
  rw [initChecksums]
  exact dictLookup_foldl_none urls [] (fun u' s' => by simp [dictLookup]) u s

theorem hfc_err (c : ScheduleChecker) (url : String) (ev : NetEvent)
    (now : DateTime) (e : PyException) (hdl : download_file ev = .error e) :
    has_file_changed c url ev now = ⟨c, .error e, []⟩ := by
  unfold has_file_changed
  rw [hdl]

theorem hfc_empty (c : ScheduleChecker) (url : String) (ev : NetEvent)
    (now : DateTime) (hdl : download_file ev = .ok []) :
    has_file_changed c url ev now = ⟨c, .ok false, []⟩ := by
  unfold has_file_changed
  rw [hdl]
  rfl

theorem hfc_first (c : ScheduleChecker) (url : String) (ev : NetEvent)
    (now : DateTime) (body : List Nat) (hdl : download_file ev = .ok body)
    (hne : body ≠ []) (habs : pyDictGet c.last_checksums url = none) :
    has_file_changed c url ev now =
      ⟨{ c with last_checksums :=
          dictSet c.last_checksums url (some (calculate_checksum body)) },
        .ok false, [save_file c.download_folder now body url]⟩ := by
  unfold has_file_changed
  rw [hdl]
  simp only [if_neg hne, habs]

theorem hfc_changed (c : ScheduleChecker) (url : String) (ev : NetEvent)
    (now : DateTime) (body : List Nat) (old : String)
    (hdl : download_file ev = .ok body) (hne : body ≠ [])
    (hstored : pyDictGet c.last_checksums url = some old)
    (hdiff : calculate_checksum body ≠ old) :
    has_file_changed c url ev now =
      ⟨{ c with last_checksums :=
          dictSet c.last_checksums url (some (calculate_checksum body)) },
        .ok true, [save_file c.download_folder now body url]⟩ := by
  unfold has_file_changed
  rw [hdl]
  simp only [if_neg hne, hstored, if_pos hdiff]

theorem hfc_same (c : ScheduleChecker) (url : String) (ev : NetEvent)
    (now : DateTime) (body : List Nat) (old : String)
    (hdl : download_file ev = .ok body) (hne : body ≠ [])
    (hstored : pyDictGet c.last_checksums url = some old)
    (heq : calculate_checksum body = old) :
    has_file_changed c url ev now = ⟨c, .ok false, []⟩ := by
  unfold has_file_changed
  rw [hdl]
  simp only [if_neg hne, hstored, heq]
  simp

theorem hfc_cases (c : ScheduleChecker) (url : String) (ev : NetEvent)
    (now : DateTime) :
    (∃ e, has_file_changed c url ev now = ⟨c, .error e, []⟩) ∨
    has_file_changed c url ev now = ⟨c, .ok false, []⟩ ∨
    (∃ cs b a, has_file_changed c url ev now =
      ⟨{ c with last_checksums := dictSet c.last_checksums url (some cs) },
        .ok b, [a]⟩) := by
  unfold has_file_changed
  split
  · exact Or.inl ⟨_, rfl⟩
  · split
    · exact Or.inr (Or.inl rfl)
    · dsimp only
      split
      · exact Or.inr (Or.inr ⟨_, _, _, rfl⟩)
      · split
        · exact Or.inr (Or.inr ⟨_, _, _, rfl⟩)
        · exact Or.inr (Or.inl rfl)

theorem hfc_urls_folder (c : ScheduleChecker) (url : String) (ev : NetEvent)
    (now : DateTime) :
    (has_file_changed c url ev now).self.urls = c.urls ∧
    (has_file_changed c url ev now).self.download_folder = c.download_folder := by
  rcases hfc_cases c url ev now with ⟨e, h⟩ | h | ⟨cs, b, a, h⟩ <;>
    rw [h]<;> exact ⟨rfl, rfl⟩

theorem hfc_keys (c : ScheduleChecker) (url : String) (ev : NetEvent)
    (now : DateTime) (hmem : url ∈ dictKeys c.last_checksums) :
    dictKeys (has_file_changed c url ev now).self.last_checksums =
      dictKeys c.last_checksums := by
  rcases hfc_cases c url ev now with ⟨e, h⟩ | h | ⟨cs, b, a, h⟩ <;>
    (rw [h]
     all_goals
       first
         | rfl
         | exact dictKeys_dictSet_mem c.last_checksums url (some cs) hmem)

theorem hfc_lookup_imp (c : ScheduleChecker) (url : String) (ev : NetEvent)
    (now : DateTime) (v : String) (s : String)
    (h : dictLookup (has_file_changed c url ev now).self.last_checksums v =
      some (some s)) :
    dictLookup c.last_checksums v = some (some s) ∨
    (v = url ∧ ∃ body, download_file ev = .ok body ∧ body ≠ [] ∧
      s = calculate_checksum body) := by
  unfold has_file_changed at h
  split at h
  · exact Or.inl h
  next file_data heq =>
    split at h
    · exact Or.inl h
    next hne =>
      dsimp only at h
      split at h
      · dsimp only at h
        by_cases hv : v = url
        · subst hv
          rw [dictLookup_dictSet_self] at h
          exact Or.inr ⟨rfl, file_data, heq, hne,
            (Option.some.inj (Option.some.inj h)).symm⟩
        · rw [dictLookup_dictSet_ne _ _ _ _ hv] at h
          exact Or.inl h
      · split at h
        · dsimp only at h
          by_cases hv : v = url
          · subst hv
            rw [dictLookup_dictSet_self] at h
            exact Or.inr ⟨rfl, file_data, heq, hne,
              (Option.some.inj (Option.some.inj h)).symm⟩
          · rw [dictLookup_dictSet_ne _ _ _ _ hv] at h
            exact Or.inl h
        · exact Or.inl h

theorem runChecks_urls_folder (us : List String) (c : ScheduleChecker)
    (fetch : String → NetEvent) (now : DateTime) :
    (runChecks c fetch now us).self.urls = c.urls ∧
    (runChecks c fetch now us).self.download_folder = c.download_folder := by
  induction us generalizing c with
  | nil => exact ⟨rfl, rfl⟩
  | cons u rest ih =>
    unfold runChecks
    dsimp only
    have ho := hfc_urls_folder c u (fetch u) now
    split
    next e heq => exact ho
    next b heq =>
      have hr := ih (has_file_changed c u (fetch u) now).self
      split
      · exact ⟨hr.1.trans ho.1, hr.2.trans ho.2⟩
      · exact ⟨hr.1.trans ho.1, hr.2.trans ho.2⟩

theorem runChecks_keys (us : List String) (c : ScheduleChecker)
    (fetch : String → NetEvent) (now : DateTime)
    (h : ∀ u ∈ us, u ∈ dictKeys c.last_checksums) :
    dictKeys (runChecks c fetch now us).self.last_checksums =
      dictKeys c.last_checksums := by
  induction us generalizing c with
  | nil => rfl
  | cons u rest ih =>
    unfold runChecks
    dsimp only
    have hk := hfc_keys c u (fetch u) now (h u (by simp))
    split
    next e heq => exact hk
    next b heq =>
      have hr := ih (has_file_changed c u (fetch u) now).self
        (fun u' hu' => by rw [hk]; exact h u' (by simp [hu']))
      split
      · exact hr.trans hk
      · exact hr.trans hk

theorem runChecks_lookup_imp (us : List String) (c : ScheduleChecker)
    (fetch : String → NetEvent) (now : DateTime) (v : String) (s : String)
    (h : dictLookup (runChecks c fetch now us).self.last_checksums v =
      some (some s)) :
    dictLookup c.last_checksums v = some (some s) ∨
    (v ∈ us ∧ ∃ body, download_file (fetch v) = .ok body ∧ body ≠ [] ∧
      s = calculate_checksum body) := by
  induction us generalizing c with
  | nil => exact Or.inl h
  | cons u rest ih =>
    unfold runChecks at h
    dsimp only at h
    split at h
    next e heq =>
      rcases hfc_lookup_imp c u (fetch u) now v s h with h1 | ⟨hv, hb⟩
      · exact Or.inl h1
      · exact Or.inr ⟨by simp [hv], by rw [hv]; exact hb⟩
    next b heq =>
      have hsub : dictLookup
          (runChecks (has_file_changed c u (fetch u) now).self fetch now
            rest).self.last_checksums v = some (some s) := by
        split at h
        · exact h
        · exact h
      rcases ih (has_file_changed c u (fetch u) now).self hsub with h1 | ⟨hv, hb⟩
      · rcases hfc_lookup_imp c u (fetch u) now v s h1 with h2 | ⟨hv, hb⟩
        · exact Or.inl h2
        · exact Or.inr ⟨by simp [hv], by rw [hv]; exact hb⟩
      · exact Or.inr ⟨by simp [hv], hb⟩

theorem check_all_files_ok (c : ScheduleChecker) (fetch : String → NetEvent)
    (now : DateTime) (c1 : ScheduleChecker) (rs : List Bool × Bool)
    (arts : List SavedArtifact)
    (h : check_all_files c fetch now = (c1, .ok rs, arts)) :
    (runChecks c fetch now c.urls).self = c1 ∧
    ∃ bs, (runChecks c fetch now c.urls).results = .ok bs ∧
      rs = (bs, bs.any id) := by
  unfold check_all_files at h
  split at h
  next c2 results arts2 heq =>
    injection h with h1 h23
    injection h23 with h2 h3
    injection h2 with h2
    refine ⟨?_, results, ?_, h2.symm⟩
    · rw [heq]
      exact h1
    · rw [heq]
  next c2 e arts2 heq =>
    injection h with h1 h23
    injection h23 with h2 h3
    exact Except.noConfusion h2

theorem hfc_result_iff_spec (c0 : ScheduleChecker) (u : String) (ev : NetEvent)
    (t : DateTime) (b : Bool)
    (h : (has_file_changed c0 u ev t).result = .ok b) :
    b = true ↔ spec_evaluate (pyDictGet c0.last_checksums u)
      (download_file ev).toOption = ChangeOutcome.Changed := by
  cases hdl : download_file ev with
  | error e =>
    rw [hfc_err c0 u ev t e hdl] at h
    exact Except.noConfusion h
  | ok body =>
    by_cases hb : body = []
    · subst hb
      rw [hfc_empty c0 u ev t hdl] at h
      have hbf : b = false := (Except.ok.inj h).symm
      subst hbf
      simp [hdl, Except.toOption, spec_evaluate]
    · cases hget : pyDictGet c0.last_checksums u with
      | none =>
        rw [hfc_first c0 u ev t body hdl hb hget] at h
        have hbf : b = false := (Except.ok.inj h).symm
        subst hbf
        simp [hdl, Except.toOption, spec_evaluate, hb, hget]
      | some old =>
        by_cases hd : calculate_checksum body = old
        · rw [hfc_same c0 u ev t body old hdl hb hget hd] at h
          have hbf : b = false := (Except.ok.inj h).symm
          subst hbf
          simp [hdl, Except.toOption, spec_evaluate, hb, hget, hd]
        · rw [hfc_changed c0 u ev t body old hdl hb hget hd] at h
          have hbt : b = true := (Except.ok.inj h).symm
          subst hbt
          simp [hdl, Except.toOption, spec_evaluate, hb, hget, hd]

theorem containsPdf_cons (c : Char) (s : List Char)
    (h : containsPdf (c :: s) = false) : containsPdf s = false := by
  rw [containsPdf.eq_def] at h
  split at h
  · exact absurd h (by simp)
  next c2 rest heq =>
    injection heq with h1 h2
    rw [h2]
    exact h
  next heq => exact absurd heq (by simp)

theorem removePdf_append_pdf : ∀ (s : List Char), containsPdf s = false →
    removePdf (s ++ ('.' :: 'p' :: 'd' :: 'f' :: [])) = s := by
  intro s
  induction s with
  | nil => intro h; rfl
  | cons c s2 ih =>
    intro h
    have h2 : containsPdf s2 = false := containsPdf_cons c s2 h
    rw [List.cons_append, removePdf.eq_def]
    split
    next rest heq =>
      rcases s2 with _ | ⟨a, _ | ⟨b2, _ | ⟨d2, t⟩⟩⟩
      · simp at heq
      · simp at heq
      · simp at heq
      · obtain ⟨hc, ha, hb2, hd2, ht⟩ : c = '.' ∧ a = 'p' ∧ b2 = 'd' ∧
          d2 = 'f' ∧ t ++ ('.' :: 'p' :: 'd' :: 'f' :: []) = rest := by
          simpa using heq
        subst hc ha hb2 hd2
        simp [containsPdf] at h
    next c2 rest heq =>
      injection heq with hc hr
      subst hc
      rw [hr.symm, ih h2]
    next heq => exact absurd heq (by simp)

theorem any_id_iff_mem (l : List Bool) : l.any id = true ↔ true ∈ l := by
  induction l with
  | nil => simp
  | cons x rest ih => cases x <;> simp [List.any_cons, ih]

theorem reach_invariant (urls : List String) (folder : String)
    (c : ScheduleChecker) (log : String → List (List Nat))
    (h : Reach urls folder c log) :
    c.urls = urls ∧ c.download_folder = folder ∧
    (∀ u, u ∈ dictKeys c.last_checksums ↔ u ∈ urls) ∧
    (∀ u s, dictLookup c.last_checksums u = some (some s) →
      ∃ body ∈ log u, body ≠ [] ∧ s = calculate_checksum body) := by
  induction h with
  | init =>
    refine ⟨rfl, rfl, fun u => mem_dictKeys_initChecksums urls u,
      fun u s hus => absurd hus (dictLookup_initChecksums_none urls u s)⟩
  | step c log fetch now c1 rs arts hreach hcycle ih =>
    obtain ⟨hurls, hfolder, hkeys, hvals⟩ := ih
    obtain ⟨hself, bs, hres, hrs⟩ :=
      check_all_files_ok c fetch now c1 rs arts hcycle
    have hrk := runChecks_keys c.urls c fetch now
      (fun u hu => (hkeys u).mpr (by rwa [hurls] at hu))
    have huf := runChecks_urls_folder c.urls c fetch now
    refine ⟨?_, ?_, ?_, ?_⟩
    · rw [← hself, huf.1, hurls]
    · rw [← hself, huf.2, hfolder]
    · intro u
      rw [← hself, hrk]
      exact hkeys u
    · intro u s hus
      rw [← hself] at hus
      rcases runChecks_lookup_imp c.urls c fetch now u s hus with
        hold | ⟨humem, body, hdl, hbne, hs⟩
      · obtain ⟨body, hbl, hbne, hs⟩ := hvals u s hold
        refine ⟨body, ?_, hbne, hs⟩
        unfold logAfterCycle
        by_cases hu : u ∈ c.urls
        · rw [if_pos hu]
          cases hdf : download_file (fetch u) with
          | ok b2 =>
            by_cases hb2 : b2 = []
            · simp only [hb2, if_pos rfl]
              exact hbl
            · simp only [if_neg hb2]
              exact List.mem_cons_of_mem b2 hbl
          | error e => exact hbl
        · rw [if_neg hu]
          exact hbl
      · refine ⟨body, ?_, hbne, hs⟩
        unfold logAfterCycle
        rw [if_pos humem]
        simp only [hdl, if_neg hbne]
        exact List.mem_cons_self body (log u)

/-! ### The claims -/

/-- C1: for every tracked URL whose stored fingerprint is present, if an
evaluation (`has_file_changed`) fetches non-empty content whose
fingerprint differs from the stored one, the evaluation updates the
stored fingerprint to the new content's fingerprint, writes exactly one
new artifact file, and returns `Changed` (the boolean `True`). -/
theorem changed_content_updates_fingerprint_and_saves
    (c : ScheduleChecker) (url : String) (ev : NetEvent) (now : DateTime)
    (body : List Nat) (old : String)
    (hdl : download_file ev = .ok body) (hne : body ≠ [])
    (hstored : pyDictGet c.last_checksums url = some old)
    (hdiff : calculate_checksum body ≠ old) :
    (has_file_changed c url ev now).result = .ok true ∧
    pyDictGet (has_file_changed c url ev now).self.last_checksums url =
      some (calculate_checksum body) ∧
    (has_file_changed c url ev now).saved =
      [save_file c.download_folder now body url] := by
  rw [hfc_changed c url ev now body old hdl hne hstored hdiff]
  exact ⟨rfl, pyDictGet_dictSet_self .., rfl⟩

theorem changed_content_updates_fingerprint_and_saves_witness :
    (has_file_changed ⟨["u"], "schedule", [("u", some "x")]⟩ "u"
      (NetEvent.response 200 [1]) t0).result = .ok true ∧
    pyDictGet (has_file_changed ⟨["u"], "schedule", [("u", some "x")]⟩ "u"
      (NetEvent.response 200 [1]) t0).self.last_checksums "u" =
      some (calculate_checksum [1]) ∧
    (has_file_changed ⟨["u"], "schedule", [("u", some "x")]⟩ "u"
      (NetEvent.response 200 [1]) t0).saved =
      [save_file "schedule" t0 [1] "u"] :=
  changed_content_updates_fingerprint_and_saves
    ⟨["u"], "schedule", [("u", some "x")]⟩ "u" (NetEvent.response 200 [1]) t0
    [1] "x" rfl (by decide) rfl (by decide)

/-- C2: for every tracked URL whose stored fingerprint is absent, the
first evaluation with a successful non-empty fetch records the new
fingerprint, writes exactly one artifact, and returns `FirstSeen` rather
than `Changed` (the boolean changed-flag is `False`). -/
theorem first_fetch_initializes_baseline
    (c : ScheduleChecker) (url : String) (ev : NetEvent) (now : DateTime)
    (body : List Nat) (hdl : download_file ev = .ok body) (hne : body ≠ [])
    (habs : pyDictGet c.last_checksums url = none) :
    (has_file_changed c url ev now).result = .ok false ∧
    pyDictGet (has_file_changed c url ev now).self.last_checksums url =
      some (calculate_checksum body) ∧
    (has_file_changed c url ev now).saved =
      [save_file c.download_folder now body url] ∧
    spec_evaluate (pyDictGet c.last_checksums url) (some body) =
      ChangeOutcome.FirstSeen := by
  rw [hfc_first c url ev now body hdl hne habs]
  refine ⟨rfl, pyDictGet_dictSet_self .., rfl, ?_⟩
  rw [habs]
  simp [spec_evaluate, hne]

theorem first_fetch_initializes_baseline_witness :
    (has_file_changed (ScheduleChecker.mkChecker ["u"] "schedule") "u"
      (NetEvent.response 200 [1]) t0).result = .ok false ∧
    pyDictGet (has_file_changed (ScheduleChecker.mkChecker ["u"] "schedule") "u"
      (NetEvent.response 200 [1]) t0).self.last_checksums "u" =
      some (calculate_checksum [1]) ∧
    (has_file_changed (ScheduleChecker.mkChecker ["u"] "schedule") "u"
      (NetEvent.response 200 [1]) t0).saved =
      [save_file "schedule" t0 [1] "u"] ∧
    spec_evaluate (pyDictGet (ScheduleChecker.mkChecker ["u"] "schedule").last_checksums
      "u") (some [1]) = ChangeOutcome.FirstSeen :=
  first_fetch_initializes_baseline (ScheduleChecker.mkChecker ["u"] "schedule")
    "u" (NetEvent.response 200 [1]) t0 [1] rfl (by decide) rfl

/-- C3: for every tracked URL, if an evaluation fetches non-empty content
whose fingerprint equals the stored fingerprint, the evaluation returns
`Unchanged`, writes no artifact, and leaves the stored fingerprint (and
all other state) unmodified. -/
theorem unchanged_content_no_mutation_no_artifact
    (c : ScheduleChecker) (url : String) (ev : NetEvent) (now : DateTime)
    (body : List Nat) (old : String)
    (hdl : download_file ev = .ok body) (hne : body ≠ [])
    (hstored : pyDictGet c.last_checksums url = some old)
    (heq : calculate_checksum body = old) :
    has_file_changed c url ev now = ⟨c, .ok false, []⟩ :=
  hfc_same c url ev now body old hdl hne hstored heq

theorem unchanged_content_no_mutation_no_artifact_witness :
    has_file_changed ⟨["u"], "schedule", [("u", some (calculate_checksum [1]))]⟩
      "u" (NetEvent.response 200 [1]) t0 =
      ⟨⟨["u"], "schedule", [("u", some (calculate_checksum [1]))]⟩,
        .ok false, []⟩ :=
  unchanged_content_no_mutation_no_artifact
    ⟨["u"], "schedule", [("u", some (calculate_checksum [1]))]⟩ "u"
    (NetEvent.response 200 [1]) t0 [1] (calculate_checksum [1]) rfl (by decide)
    rfl rfl

/-- C4: the claim says every failure mode of the GET — non-success
status, timeout, DNS failure, connection error — is classified by
`download_file` as a fetch failure (empty bytes) and no exception ever
propagates to its caller.  The code catches only `aiohttp.ClientError`;
a non-success status, a DNS failure and a connection error are indeed
turned into `b""`, but expiry of the total timeout raises
`asyncio.TimeoutError`, which is not an `aiohttp.ClientError` and
therefore propagates out of `download_file`, contradicting the claim. -/
theorem download_failure_classification :
    download_file (NetEvent.response 404 [55]) = .ok [] ∧
    download_file NetEvent.dnsFailure = .ok [] ∧
    download_file NetEvent.connectionError = .ok [] ∧
    download_file (NetEvent.response 200 [55]) = .ok [55] ∧
    download_file NetEvent.timeout = .error PyException.asyncioTimeoutError ∧
    isClientError PyException.asyncioTimeoutError = false :=
  ⟨rfl, rfl, rfl, rfl, rfl, rfl⟩

/-- C5: the claim says any fetch failure or empty payload makes the
evaluation return `Unchanged` (`False`) with no mutation and no artifact.
That holds for every failure the `except aiohttp.ClientError` clause
catches (all of which surface as empty bytes) and for genuinely empty
payloads — first conjunct — but on a total-timeout the evaluation does
not return `False` at all: the `asyncio.TimeoutError` propagates out of
`has_file_changed` (second conjunct), contradicting the claim (though the
state is indeed left unmodified). -/
theorem fetch_failure_or_empty_is_unchanged :
    (∀ (c : ScheduleChecker) (url : String) (ev : NetEvent) (now : DateTime),
      download_file ev = .ok [] →
      has_file_changed c url ev now = ⟨c, .ok false, []⟩) ∧
    has_file_changed ⟨["u"], "schedule", [("u", some "x")]⟩ "u"
      NetEvent.timeout t0 =
      ⟨⟨["u"], "schedule", [("u", some "x")]⟩,
        .error PyException.asyncioTimeoutError, []⟩ :=
  ⟨fun c url ev now hdl => hfc_empty c url ev now hdl, rfl⟩

theorem fetch_failure_or_empty_is_unchanged_witness :
    has_file_changed ⟨["u"], "schedule", [("u", some "x")]⟩ "u"
      NetEvent.connectionError t0 =
      ⟨⟨["u"], "schedule", [("u", some "x")]⟩, .ok false, []⟩ :=
  fetch_failure_or_empty_is_unchanged.1
    ⟨["u"], "schedule", [("u", some "x")]⟩ "u" NetEvent.connectionError t0 rfl

/-- C6: for every cycle, the aggregate summary reports updates were found
iff at least one source's evaluation returned `True`, and an evaluation
returns `True` exactly when the spec-side classification of that
evaluation is `Changed` — so `FirstSeen` and `Unchanged` evaluations
(both reported as `False`) are never counted in the aggregate signal. -/
theorem aggregate_summary_iff_some_changed
    (c : ScheduleChecker) (fetch : String → NetEvent) (now : DateTime)
    (c1 : ScheduleChecker) (results : List Bool) (summary : Bool)
    (arts : List SavedArtifact)
    (h : check_all_files c fetch now = (c1, .ok (results, summary), arts)) :
    (summary = true ↔ true ∈ results) ∧
    (∀ (c0 : ScheduleChecker) (u : String) (ev : NetEvent) (t : DateTime)
      (b : Bool), (has_file_changed c0 u ev t).result = .ok b →
      (b = true ↔ spec_evaluate (pyDictGet c0.last_checksums u)
        (download_file ev).toOption = ChangeOutcome.Changed)) := by
  obtain ⟨hself, bs, hres, hrs⟩ :=
    check_all_files_ok c fetch now c1 (results, summary) arts h
  constructor
  · have h1 : results = bs := congrArg Prod.fst hrs
    have h2 : summary = bs.any id := congrArg Prod.snd hrs
    rw [h2, h1, any_id_iff_mem]
  · exact fun c0 u ev t b hb => hfc_result_iff_spec c0 u ev t b hb

theorem aggregate_summary_iff_some_changed_witness :
    ((false : Bool) = true ↔ true ∈ ([false] : List Bool)) ∧
    (∀ (c0 : ScheduleChecker) (u : String) (ev : NetEvent) (t : DateTime)
      (b : Bool), (has_file_changed c0 u ev t).result = .ok b →
      (b = true ↔ spec_evaluate (pyDictGet c0.last_checksums u)
        (download_file ev).toOption = ChangeOutcome.Changed)) :=
  aggregate_summary_iff_some_changed (ScheduleChecker.mkChecker ["u"] "f")
    (fun _ => NetEvent.response 200 [1]) t0
    ⟨["u"], "f", [("u", some (calculate_checksum [1]))]⟩ [false] false
    [save_file "f" t0 [1] "u"] rfl

/-- C7: fingerprinting (`calculate_checksum`) is deterministic and
content-only: on byte-identical payloads it produces the identical
fingerprint string (it is a pure function of the payload bytes alone —
neither the fetch time nor the URL is an input). -/
theorem checksum_deterministic_content_only (data data2 : List Nat)
    (h : data = data2) :
    calculate_checksum data = calculate_checksum data2 :=
  congrArg calculate_checksum h

theorem checksum_deterministic_content_only_witness :
    calculate_checksum [1, 2] = calculate_checksum [1, 2] :=
  checksum_deterministic_content_only [1, 2] [1, 2] rfl

/-- C8 counterexample: the claim says the artifact name is the URL's
trailing path segment with any `.pdf` SUFFIX stripped (plus timestamp and
extension).  The code instead removes EVERY occurrence of `.pdf` (Python
`str.replace`): for the URL `http://h/a.pdfb.pdf` the code writes
`schedule/ab_20250102_030405.pdf` while the claimed naming yields
`schedule/a.pdfb_20250102_030405.pdf`. -/
theorem artifact_name_strips_inner_pdf_occurrences :
    (save_file "schedule" t0 [9] "http://h/a.pdfb.pdf").path =
      "schedule/ab_20250102_030405.pdf" ∧
    spec_artifact_path "schedule" t0 "http://h/a.pdfb.pdf" =
      "schedule/a.pdfb_20250102_030405.pdf" ∧
    (save_file "schedule" t0 [9] "http://h/a.pdfb.pdf").path ≠
      spec_artifact_path "schedule" t0 "http://h/a.pdfb.pdf" :=
  ⟨by decide, by decide, by decide⟩

/-- C8 amended: the artifact is placed in the configured output directory
and named from the URL's trailing path segment with every occurrence of
the substring `.pdf` removed (not only a suffix), concatenated with an
underscore, the second-resolution `YYYYMMDD_HHMMSS` timestamp, and the
fixed `.pdf` extension; when the trailing segment contains `.pdf` only as
its final suffix, this coincides with the suffix-stripped name the claim
described. -/
theorem artifact_name_replace_all_pdf (folder : String) (now : DateTime)
    (data : List Nat) (url : String) :
    ((save_file folder now data url).path =
      pyPathJoin folder (String.mk (removePdf (lastSegment url)) ++ "_" ++
        strftimeYmdHMS now ++ ".pdf") ∧
     (save_file folder now data url).data = data) ∧
    (∀ (s : List Char), containsPdf s = false →
      removePdf (s ++ ('.' :: 'p' :: 'd' :: 'f' :: [])) = s) :=
  ⟨⟨rfl, rfl⟩, fun s hs => removePdf_append_pdf s hs⟩

theorem artifact_name_replace_all_pdf_witness :
    removePdf (('s' :: 'p' :: 'o' :: []) ++ ('.' :: 'p' :: 'd' :: 'f' :: [])) =
      ('s' :: 'p' :: 'o' :: []) :=
  (artifact_name_replace_all_pdf "schedule" t0 [9] "u").2
    ('s' :: 'p' :: 'o' :: []) (by decide)

/-- C9: in every reachable state, the key set of `last_checksums` is
exactly the configured URL list, every non-absent value is the MD5 hex
digest of some non-empty payload previously fetched from that same URL,
and evaluations only overwrite existing entries — they never add or
remove keys. -/
theorem fingerprint_map_reachable_invariant (urls : List String)
    (folder : String) (c : ScheduleChecker) (log : String → List (List Nat))
    (h : Reach urls folder c log) :
    (∀ u, u ∈ dictKeys c.last_checksums ↔ u ∈ urls) ∧
    (∀ u s, dictLookup c.last_checksums u = some (some s) →
      ∃ body ∈ log u, body ≠ [] ∧ s = calculate_checksum body) ∧
    (∀ (c0 : ScheduleChecker) (u : String) (ev : NetEvent) (t : DateTime),
      u ∈ dictKeys c0.last_checksums →
      dictKeys (has_file_changed c0 u ev t).self.last_checksums =
        dictKeys c0.last_checksums) :=
  ⟨(reach_invariant urls folder c log h).2.2.1,
   (reach_invariant urls folder c log h).2.2.2,
   fun c0 u ev t hm => hfc_keys c0 u ev t hm⟩

theorem fingerprint_map_reachable_invariant_witness :
    (∀ u, u ∈ dictKeys (ScheduleChecker.mkChecker ["u"] "f").last_checksums ↔
      u ∈ ["u"]) ∧
    (∀ u s, dictLookup (ScheduleChecker.mkChecker ["u"] "f").last_checksums u =
      some (some s) →
      ∃ body ∈ (fun _ => ([] : List (List Nat))) u, body ≠ [] ∧
        s = calculate_checksum body) ∧
    (∀ (c0 : ScheduleChecker) (u : String) (ev : NetEvent) (t : DateTime),
      u ∈ dictKeys c0.last_checksums →
      dictKeys (has_file_changed c0 u ev t).self.last_checksums =
        dictKeys c0.last_checksums) :=
  fingerprint_map_reachable_invariant ["u"] "f"
    (ScheduleChecker.mkChecker ["u"] "f") (fun _ => []) Reach.init

/-- C10: evaluating one URL leaves every other URL's stored fingerprint
entry in `last_checksums` unchanged, and leaves the configured URL list
and the download folder unchanged — whatever the outcome (first seen,
changed, unchanged, failure, or propagated exception). -/
theorem evaluation_frame_other_urls (c : ScheduleChecker) (url : String)
    (ev : NetEvent) (now : DateTime) (v : String) (hvu : v ≠ url) :
    dictLookup (has_file_changed c url ev now).self.last_checksums v =
      dictLookup c.last_checksums v ∧
    (has_file_changed c url ev now).self.urls = c.urls ∧
    (has_file_changed c url ev now).self.download_folder =
      c.download_folder := by
  refine ⟨?_, (hfc_urls_folder c url ev now).1, (hfc_urls_folder c url ev now).2⟩
  rcases hfc_cases c url ev now with ⟨e, h⟩ | h | ⟨cs, b, a, h⟩ <;>
    (rw [h]
     all_goals
       first
         | rfl
         | exact dictLookup_dictSet_ne c.last_checksums url v (some cs) hvu)

theorem evaluation_frame_other_urls_witness :
    dictLookup (has_file_changed (ScheduleChecker.mkChecker ["u", "v"] "f") "u"
      (NetEvent.response 200 [1]) t0).self.last_checksums "v" =
      dictLookup (ScheduleChecker.mkChecker ["u", "v"] "f").last_checksums "v" ∧
    (has_file_changed (ScheduleChecker.mkChecker ["u", "v"] "f") "u"
      (NetEvent.response 200 [1]) t0).self.urls =
      (ScheduleChecker.mkChecker ["u", "v"] "f").urls ∧
    (has_file_changed (ScheduleChecker.mkChecker ["u", "v"] "f") "u"
      (NetEvent.response 200 [1]) t0).self.download_folder =
      (ScheduleChecker.mkChecker ["u", "v"] "f").download_folder :=
  evaluation_frame_other_urls (ScheduleChecker.mkChecker ["u", "v"] "f") "u"
    (NetEvent.response 200 [1]) t0 "v" (by decide)

end Rasp
